import Mathlib

/-!
Shallow embedding of the arpen-express repository: the Express server's
middleware lifecycle (src/servers/express.js), the session middleware
(src/middleware/session.js, two variants), the session bridge service
(src/services/express-session.js) and the routes middleware
(src/unnamed/part_002, sorting variant).

JavaScript values are embedded as follows: strings are `String`, JS objects
used as string maps are association lists `List (String × String)`, nullable
references are `Option`, numeric ids are `Nat`, fallible async calls are
`Except`.  JS truthiness on strings (empty string is falsy) and on numbers
(zero is falsy) is modelled explicitly at each use site.  External
collaborators (repositories, the geoip lookup, the DI container) are
function-valued parameters of the model.
-/

namespace ArpenExpress

/-- Association-list lookup, modelling JS property access `obj[key]` and
`Map.get(key)`: the first binding for the key wins, absence is `none`. -/
def assocLookup {κ β : Type} [DecidableEq κ] : List (κ × β) → κ → Option β
  | [], _ => none
  | (k, v) :: rest, key => if k = key then some v else assocLookup rest key

/-- JS idiom `s && s.trim()` followed by a truthiness test: a missing header
or one that trims to the empty string counts as absent. -/
def jsTrimOpt : Option String → Option String
  | none => none
  | some v => let t := v.trim; if t = "" then none else some t

/-- User model (owned by the external user repository): only the `id` field
is read by this repository (`user.id` in `ExpressSession.create` and `save`). -/
structure UserModel where
  id : Nat
deriving DecidableEq

/-- Request metadata snapshot built by `ExpressSession._getInfo`:
ip, forwarded-for, user-agent and geoip lookup result, each `null`able. -/
structure ReqInfo where
  ip : Option String
  forwarded : Option String
  userAgent : Option String
  geoip : Option String
deriving DecidableEq

/-- Session model record: `token`, free-form `payload` (JS object, modelled
as an association list), nullable `user`, nullable `userId` and the metadata
snapshot `info`.  Matches the fields written by `ExpressSession.create`,
`find` and `save` in src/services/express-session.js. -/
structure SessionModel where
  token : String
  payload : List (String × String)
  user : Option UserModel
  userId : Option Nat
  info : ReqInfo
deriving DecidableEq

/-- Express request object, restricted to the parts the bridge reads in
`_getInfo`: the (lower-cased) header map and the transport-level `req.ip`
(nullable, possibly empty string). -/
structure Req where
  headers : List (String × String)
  ip : Option String
deriving DecidableEq

/-- Session repository interface (external collaborator, spec section 6):
`findByToken` returns a list of rows, `getModel` produces a blank model,
`hasDeleteExpired` records whether the optional `deleteExpired` method is
implemented. -/
structure SessionRepo where
  findByToken : String → List SessionModel
  getModel : SessionModel
  hasDeleteExpired : Bool

/-- Bridge binding for one named server, holding what the `ExpressSession`
constructor and getters read from the configuration: the optional session
model service (as the blank instance the DI container would return), the
optional session and user repositories, the configured ip header, the token
length (`this._tokenLength`, default 64), the expiration timeout and the
external geoip lookup function. -/
structure Bridge where
  server : String
  project : String
  modelTemplate : Option SessionModel
  sessionRepo : Option SessionRepo
  userRepo : Option (Nat → List UserModel)
  ipHeader : Option String
  tokenLength : Nat
  expireTimeout : Nat
  geo : String → Option String

/-- Storage operations the bridge may invoke on its session repository;
used as an explicit trace so that "no storage operation is invoked" is a
provable statement. -/
inductive StorageOp where
  | save (s : SessionModel)
  | delete (s : SessionModel)
  | deleteExpired (timeout : Nat)
deriving DecidableEq

namespace ExpressSession

/-- Embedding of `ExpressSession.tokenVar` (src/services/express-session.js):
the cookie name is the template literal sid_<server>_<project>. -/
def tokenVar (b : Bridge) : String :=
  "sid_" ++ b.server ++ "_" ++ b.project

/-- Embedding of `ExpressSession._getInfo`: the client ip comes from the
configured ip header when that header is present and non-blank, else from
`req.ip`; forwarded-for and user-agent are trimmed headers; geoip is the
external lookup on the ip when the ip is truthy.  The trailing
`|| null` normalisations of the source are the `jsTrimOpt`/empty-string
checks here. -/
def getInfo (b : Bridge) (req : Option Req) : ReqInfo :=
  let ip : Option String :=
    match req with
    | none => none
    | some r =>
      let fromHeader : Option String :=
        match b.ipHeader with
        | some h => jsTrimOpt (assocLookup r.headers h)
        | none => none
      match fromHeader with
      | some v => some v
      | none =>
        match r.ip with
        | some v => if v = "" then none else some v
        | none => none
  { ip := ip
    forwarded :=
      match req with
      | some r => jsTrimOpt (assocLookup r.headers "x-forwarded-for")
      | none => none
    userAgent :=
      match req with
      | some r => jsTrimOpt (assocLookup r.headers "user-agent")
      | none => none
    geoip :=
      match ip with
      | some v => b.geo v
      | none => none }

/-- Lower-case letters, as selected by the `lower` flag of the random string
options. -/
def lowerChars : List Char := "abcdefghijklmnopqrstuvwxyz".toList

/-- Upper-case letters, as selected by the `upper` flag. -/
def upperChars : List Char := "ABCDEFGHIJKLMNOPQRSTUVWXYZ".toList

/-- Digits, as selected by the `digits` flag. -/
def digitChars : List Char := "0123456789".toList

/-- Characters the Util service may add when its fourth option flag is set;
`ExpressSession.create` always passes false for that flag. -/
def extraChars : List Char := "!@$%^&*".toList

/-- Alphabet selected by the option flags passed to the Util service's
random string generator. -/
def alphabetOf (lower upper digits extra : Bool) : List Char :=
  (if lower then lowerChars else []) ++
  (if upper then upperChars else []) ++
  (if digits then digitChars else []) ++
  (if extra then extraChars else [])

/-- Modelled from the spec: the Util service's `getRandomString` is not part
of this repository; per the spec it returns a cryptographically random string
of the requested length over the alphabet selected by the option flags.
Randomness is modelled by a numeric seed consumed digit-by-digit in base
`alphabet.length`. -/
def randomChars (alpha : List Char) (seed : Nat) : Nat → List Char
  | 0 => []
  | n + 1 => alpha.getD (seed % alpha.length) 'a' :: randomChars alpha (seed / alpha.length) n

/-- Modelled from the spec: the Util service's `getRandomString`, packaging
`randomChars` as a string. -/
def getRandomString (seed len : Nat) (lower upper digits extra : Bool) : String :=
  String.mk (randomChars (alphabetOf lower upper digits extra) seed len)

/-- Blank session model used by `create`: the configured model service when
one is set, else the session repository's `getModel()`, else nothing.
Mirrors the if/else-if/else chain at the top of `ExpressSession.create`. -/
def blankModel (b : Bridge) : Option SessionModel :=
  match b.modelTemplate with
  | some m => some m
  | none =>
    match b.sessionRepo with
    | some repo => some repo.getModel
    | none => none

/-- Embedding of `ExpressSession.create`: throws when neither a model nor a
session repository is configured; otherwise fills the blank model with a
fresh random token of length `tokenLength` over the lower+upper+digits
alphabet, an empty payload, the computed metadata snapshot, the given user,
and (only when a user is given) `userId := user.id`. -/
def create (b : Bridge) (user : Option UserModel) (req : Option Req) (seed : Nat) :
    Except String SessionModel :=
  match blankModel b with
  | none => Except.error "No model for the bridge"
  | some s0 =>
    Except.ok
      { s0 with
        token := getRandomString seed b.tokenLength true true true false
        payload := []
        info := getInfo b req
        user := user
        userId := match user with | some u => some u.id | none => s0.userId }

/-- Embedding of `ExpressSession.find`: `null` when no session repository is
configured or the repository returns no rows; otherwise the first row, with
the user resolved through the user repository when `userId` is truthy and a
user repository is configured (`null` user when the lookup returns no rows),
and the metadata snapshot refreshed when a request is supplied.  The
function is total: "not found" is `none`, never an exception. -/
def find (b : Bridge) (token : String) (req : Option Req) : Option SessionModel :=
  match b.sessionRepo with
  | none => none
  | some repo =>
    match repo.findByToken token with
    | [] => none
    | s :: _ =>
      let s1 :=
        match s.userId, b.userRepo with
        | some uid, some ur =>
          if uid ≠ 0 then { s with user := (ur uid).head? } else s
        | _, _ => s
      let s2 :=
        match req with
        | some r => { s1 with info := getInfo b (some r) }
        | none => s1
      some s2

/-- Embedding of `ExpressSession.save`: refreshes the metadata snapshot when
a request is supplied, derives `userId` from the attached user (`null` when
no user), and persists through the repository only when one is configured.
The storage side effect is returned as an explicit trace. -/
def save (b : Bridge) (session : SessionModel) (req : Option Req) :
    SessionModel × List StorageOp :=
  let s1 :=
    match req with
    | some r => { session with info := getInfo b (some r) }
    | none => session
  let s2 := { s1 with userId := s1.user.map (fun u => u.id) }
  (s2, match b.sessionRepo with | some _ => [StorageOp.save s2] | none => [])

/-- Embedding of `ExpressSession.destroy`: deletes through the repository
only when one is configured. -/
def destroy (b : Bridge) (session : SessionModel) : List StorageOp :=
  match b.sessionRepo with
  | some _ => [StorageOp.delete session]
  | none => []

/-- Embedding of `ExpressSession.expire`: bulk-deletes expired sessions only
when a repository is configured and it implements `deleteExpired`. -/
def expire (b : Bridge) : List StorageOp :=
  match b.sessionRepo with
  | some repo =>
    if repo.hasDeleteExpired then [StorageOp.deleteExpired b.expireTimeout] else []
  | none => []

end ExpressSession

/-- Modelled from the spec: the core session service used by the middleware
(`this._session`) is not part of this repository.  Its `isValid` is, per the
spec, true iff the session carries a non-empty payload or an attached user. -/
def SessionService.isValid (s : SessionModel) : Bool :=
  !s.payload.isEmpty || s.user.isSome

/-- Modelled from the spec: the core session service's `update`, called by
the middleware at FINALIZE; per the spec's FINALIZE state machine it persists
the session and reports whether the session is valid, which decides cookie
issuance in the merged-payload middleware variant. -/
def SessionService.update (s : SessionModel) : Except Unit Bool :=
  Except.ok (SessionService.isValid s)

/-- Value of the request-scoped `req.session` field in the nullable
middleware variant: JS `null` or a payload object. -/
inductive JsField where
  | null
  | payload (p : List (String × String))
deriving DecidableEq

/-- Request context produced by the nullable session-middleware variant's
per-request handler (src/middleware/session.js, first variant): the
`req.session` and `req.user` fields, the handler's local `session` closure
variable, and the number of errors logged. -/
structure Ctx1 where
  reqSession : JsField
  reqUser : Option UserModel
  session : Option SessionModel
  logged : Nat
deriving DecidableEq

/-- Request context produced by the merged-payload session-middleware
variant (src/middleware/session.js, second variant): here `req.session`
is always an object. -/
structure Ctx2 where
  reqSession : List (String × String)
  reqUser : Option UserModel
  session : Option SessionModel
  logged : Nat
deriving DecidableEq

/-- Cookie set through `res.cookie(name, value, options)` in the finalize
hook. -/
structure CookieSet where
  name : String
  value : String
  maxAge : Nat
  path : String
  httpOnly : Bool
deriving DecidableEq

/-- Result of running the patched `res.end`: the cookie set (at most one
`res.cookie` call exists in the hook), the number of errors logged, and
whether the original `res.end` was invoked. -/
structure EndResult where
  cookie : Option CookieSet
  logged : Nat
  origEndCalled : Bool
deriving DecidableEq

/-- Embedding of the token extraction
`req.cookies && bridge.tokenVar && req.cookies[bridge.tokenVar]` followed by
`if (token)`: the token takes part in decoding only when the cookie map is
present, the token variable is truthy and the cookie value is truthy. -/
def cookieTokenOf (cookies : Option (List (String × String))) (tokenVar : String) :
    Option String :=
  match cookies with
  | none => none
  | some cs =>
    if tokenVar = "" then none
    else
      match assocLookup cs tokenVar with
      | some v => if v = "" then none else some v
      | none => none

/-- Fallible part of the per-request try block, shared by both middleware
variants: decode the cookie token when present (`decodeJwt` may throw or
yield no session), then create an anonymous session when none was obtained
(`create` may throw).  `decode` and `create` are the session-service calls,
modelled as oracles so the theorems quantify over every possible failure. -/
def sessionAttempt (cookieToken : Option String)
    (decode : String → Except Unit (Option SessionModel))
    (create : Except Unit SessionModel) : Except Unit (Option SessionModel) :=
  match cookieToken with
  | some t =>
    match decode t with
    | Except.error e => Except.error e
    | Except.ok (some s) => Except.ok (some s)
    | Except.ok none =>
      match create with
      | Except.error e => Except.error e
      | Except.ok s => Except.ok (some s)
  | none =>
    match create with
    | Except.error e => Except.error e
    | Except.ok s => Except.ok (some s)

/-- Truth of an `Except` failing, used to state the catch branches. -/
def isError {ε α : Type} : Except ε α → Bool
  | Except.error _ => true
  | Except.ok _ => false

/-- Embedding of the per-request handler of the nullable variant
(src/middleware/session.js lines 53-70): `req.session` and `req.user` start
as `null`; on success `req.session` becomes the session's payload object
(`(session && session.payload) || null`) and `req.user` the session's user;
any error is caught and logged, leaving the initial `null`s in place. -/
def handle1 (cookies : Option (List (String × String))) (tokenVar : String)
    (decode : String → Except Unit (Option SessionModel))
    (create : Except Unit SessionModel) : Ctx1 :=
  match sessionAttempt (cookieTokenOf cookies tokenVar) decode create with
  | Except.ok sess =>
    { reqSession :=
        match sess with
        | some s => JsField.payload s.payload
        | none => JsField.null
      reqUser :=
        match sess with
        | some s => s.user
        | none => none
      session := sess
      logged := 0 }
  | Except.error _ =>
    { reqSession := JsField.null, reqUser := none, session := none, logged := 1 }

/-- JS `Object.assign(target, src)` restricted to string-valued objects:
each source binding overwrites an existing key in place or is appended. -/
def jsAssign (tgt src : List (String × String)) : List (String × String) :=
  src.foldl
    (fun acc kv =>
      if acc.any (fun e => e.1 = kv.1)
      then acc.map (fun e => if e.1 = kv.1 then (e.1, kv.2) else e)
      else acc ++ [kv])
    tgt

/-- Embedding of the per-request handler of the merged-payload variant
(src/middleware/session.js lines 167-187): `req.session` starts as an empty
object into which the session's payload is `Object.assign`ed on success;
any error is caught and logged, leaving the empty object in place. -/
def handle2 (cookies : Option (List (String × String))) (tokenVar : String)
    (decode : String → Except Unit (Option SessionModel))
    (create : Except Unit SessionModel) : Ctx2 :=
  match sessionAttempt (cookieTokenOf cookies tokenVar) decode create with
  | Except.ok sess =>
    { reqSession :=
        match sess with
        | some s => jsAssign [] s.payload
        | none => []
      reqUser :=
        match sess with
        | some s => s.user
        | none => none
      session := sess
      logged := 0 }
  | Except.error _ =>
    { reqSession := [], reqUser := none, session := none, logged := 1 }

/-- Embedding of the patched `res.end` of the nullable variant
(src/middleware/session.js lines 72-94): when a session exists, reassign its
user from `req.user`, call the session service's update, and when
`isValid(session) && bridge.tokenVar` holds encode the token and set the
cookie with maxAge one year, path root, httpOnly false; any error is caught
and logged; the original `res.end` is invoked on every path. -/
def endHook1 (session : Option SessionModel) (reqUser : Option UserModel)
    (tokenVar : String)
    (update : SessionModel → Except Unit Bool)
    (encode : SessionModel → Except Unit String) : EndResult :=
  match session with
  | none => { cookie := none, logged := 0, origEndCalled := true }
  | some s0 =>
    let s := { s0 with user := reqUser }
    match update s with
    | Except.error _ => { cookie := none, logged := 1, origEndCalled := true }
    | Except.ok _ =>
      if SessionService.isValid s && !(tokenVar = "") then
        match encode s with
        | Except.error _ => { cookie := none, logged := 1, origEndCalled := true }
        | Except.ok tok =>
          { cookie := some
              { name := tokenVar, value := tok, maxAge := 365 * 24 * 60 * 60 * 1000
                path := "/", httpOnly := false }
            logged := 0
            origEndCalled := true }
      else { cookie := none, logged := 0, origEndCalled := true }

/-- Embedding of the patched `res.end` of the merged-payload variant
(src/middleware/session.js lines 189-210): the session's payload is
reassigned from `req.session` and its user from `req.user`; the cookie is
set when the session service's update resolves truthy and the token
variable is truthy. -/
def endHook2 (session : Option SessionModel) (reqSession : List (String × String))
    (reqUser : Option UserModel) (tokenVar : String)
    (update : SessionModel → Except Unit Bool)
    (encode : SessionModel → Except Unit String) : EndResult :=
  match session with
  | none => { cookie := none, logged := 0, origEndCalled := true }
  | some s0 =>
    let s := { s0 with payload := reqSession, user := reqUser }
    match update s with
    | Except.error _ => { cookie := none, logged := 1, origEndCalled := true }
    | Except.ok ok =>
      if ok && !(tokenVar = "") then
        match encode s with
        | Except.error _ => { cookie := none, logged := 1, origEndCalled := true }
        | Except.ok tok =>
          { cookie := some
              { name := tokenVar, value := tok, maxAge := 365 * 24 * 60 * 60 * 1000
                path := "/", httpOnly := false }
            logged := 0
            origEndCalled := true }
      else { cookie := none, logged := 0, origEndCalled := true }

/-- Whole per-request run of the nullable variant: the handler's try block
followed by the patched `res.end` on the resulting request context. -/
def requestRun1 (cookies : Option (List (String × String))) (tokenVar : String)
    (decode : String → Except Unit (Option SessionModel))
    (create : Except Unit SessionModel)
    (update : SessionModel → Except Unit Bool)
    (encode : SessionModel → Except Unit String) : Ctx1 × EndResult :=
  let c := handle1 cookies tokenVar decode create
  (c, endHook1 c.session c.reqUser tokenVar update encode)

namespace Express

/-- Association lookup into the shared `express.middleware` map, keyed by
middleware identifier. -/
def mwLookup (cache : List (String × Nat)) (n : String) : Option Nat :=
  assocLookup cache n

/-- Embedding of the middleware-loading reduce in `Express.init`
(src/servers/express.js lines 130-149): the configured identifiers are
processed left to right — the `reduce` awaits the previous `register`
before starting the next, so the fold order is the await order.  Each
identifier is resolved through the shared cache when present, else freshly
resolved from the DI container (modelled by the `fresh` counter) and cached.
Returns the final cache, the next fresh instance id, and the ordered trace
of `(identifier, instance)` register calls. -/
def init (cache : List (String × Nat)) (fresh : Nat) :
    List String → List (String × Nat) × Nat × List (String × Nat)
  | [] => (cache, fresh, [])
  | cur :: rest =>
    match mwLookup cache cur with
    | some obj =>
      let r := init cache fresh rest
      (r.1, r.2.1, (cur, obj) :: r.2.2)
    | none =>
      let r := init ((cur, fresh) :: cache) (fresh + 1) rest
      (r.1, r.2.1, (cur, fresh) :: r.2.2)

/-- Embedding of the middleware-unloading reduce in `Express.stop`
(src/servers/express.js lines 215-233): the configured identifiers are
processed left to right, skipping those absent from the cache and those
whose instance has no `unregister` function (`hasUnreg`); the rest yield
awaited `unregister` calls in list order. -/
def stop (cache : List (String × Nat)) (hasUnreg : String → Bool) :
    List String → List (String × Nat)
  | [] => []
  | cur :: rest =>
    match mwLookup cache cur with
    | none => stop cache hasUnreg rest
    | some obj =>
      if hasUnreg cur then (cur, obj) :: stop cache hasUnreg rest
      else stop cache hasUnreg rest

end Express

/-- Router contributed by a module: a numeric priority and the mounted
router (identified by a number so ties can be told apart). -/
structure ModRouter where
  priority : Int
  router : Nat
deriving DecidableEq

/-- Descending-priority relation used to model the JS comparator
`(a, b) => b.priority - a.priority`: `a` may precede `b` iff
`b.priority ≤ a.priority`. -/
def routerRel (a b : ModRouter) : Prop := b.priority ≤ a.priority

instance : DecidableRel routerRel := fun a b => Int.decLe b.priority a.priority

instance : IsTotal ModRouter routerRel :=
  ⟨fun a b => (Int.le_total b.priority a.priority).imp id id⟩

instance : IsTrans ModRouter routerRel :=
  ⟨fun _ _ _ hab hbc => Int.le_trans hbc hab⟩

/-- Routers collected from the loaded modules by the sorting variant of
`Routes.register` (src/unnamed/part_002 lines 149-161): modules without a
`routers` function are skipped (`none`), the others contribute their routers
in order. -/
def collectRouters : List (Option (List ModRouter)) → List ModRouter
  | [] => []
  | none :: rest => collectRouters rest
  | some rs :: rest => rs ++ collectRouters rest

/-- Embedding of the sorting variant of `Routes.register`: the collected
routers are sorted by `routers.sort((a, b) => b.priority - a.priority)` and
mounted in that order.  JS `Array.prototype.sort` is stable (ES2019) and the
comparator is a consistent total preorder comparator, so its result is the
unique descending-by-priority, tie-stable permutation — which insertion
sort with `routerRel` produces. -/
def Routes.register (modules : List (Option (List ModRouter))) : List ModRouter :=
  List.insertionSort routerRel (collectRouters modules)

/-! Helper lemmas about the random token generator. -/

lemma randomChars_length (alpha : List Char) (seed : Nat) :
    ∀ n, (ExpressSession.randomChars alpha seed n).length = n := by
  intro n
  induction n generalizing seed with
  | zero => rfl
  | succ n ih => simp [ExpressSession.randomChars, ih]

lemma randomChars_mem (alpha : List Char) (h : alpha ≠ []) (seed : Nat) :
    ∀ n c, c ∈ ExpressSession.randomChars alpha seed n → c ∈ alpha := by
  intro n
  induction n generalizing seed with
  | zero => intro c hc; cases hc
  | succ n ih =>
    intro c hc
    rcases List.mem_cons.mp hc with hc | hc
    · subst hc
      have hlen : 0 < alpha.length := List.length_pos.mpr h
      have hlt : seed % alpha.length < alpha.length := Nat.mod_lt _ hlen
      rw [List.getD_eq_getElem alpha 'a' hlt]
      exact List.getElem_mem hlt
    · exact ih (seed / alpha.length) c hc

lemma alnum_alphabet :
    ∀ c ∈ ExpressSession.alphabetOf true true true false, c.isAlphanum = true := by
  decide

lemma getRandomString_length (seed len : Nat) (l u d e : Bool) :
    (ExpressSession.getRandomString seed len l u d e).length = len :=
  randomChars_length _ seed len

lemma getRandomString_alnum (seed len : Nat) :
    ∀ c ∈ (ExpressSession.getRandomString seed len true true true false).toList,
      c.isAlphanum = true := by
  intro c hc
  exact alnum_alphabet c (randomChars_mem _ (by decide) seed len c hc)

/-- Test fixture: an empty request metadata snapshot. -/
def infoT : ReqInfo := { ip := none, forwarded := none, userAgent := none, geoip := none }

/-- Test fixture: a blank session model as a DI-provided model service would
return it. -/
def blankT : SessionModel :=
  { token := "", payload := [], user := none, userId := none, info := infoT }

/-- Test fixture: a bridge with a configured model service and no
repositories. -/
def bT : Bridge :=
  { server := "web", project := "p", modelTemplate := some blankT, sessionRepo := none
    userRepo := none, ipHeader := none, tokenLength := 3, expireTimeout := 0
    geo := fun _ => none }

/-- Test fixture: a bridge with neither a model service nor a session
repository. -/
def bBad : Bridge := { bT with modelTemplate := none }

/-- Test fixture: the session `ExpressSession.create` builds on `bT` for
user 7 with seed 0. -/
def sT : SessionModel :=
  { token := "aaa", payload := [], user := some { id := 7 }, userId := some 7, info := infoT }

/-- C5: `create(user, req)` throws exactly when neither a session model nor a
session repository is configured; otherwise it returns a session with a
fresh random token of the configured length over the alphanumeric alphabet,
an empty payload, a computed metadata snapshot, the given user attached, and
`userId = user.id` when a user is given. -/
theorem claim_c5 (b : Bridge) (user : Option UserModel) (req : Option Req) (seed : Nat) :
    (isError (ExpressSession.create b user req seed) = true ↔
      (b.modelTemplate = none ∧ b.sessionRepo = none))
    ∧ (∀ s, ExpressSession.create b user req seed = Except.ok s →
        s.token.length = b.tokenLength
        ∧ (∀ c ∈ s.token.toList, c.isAlphanum = true)
        ∧ s.payload = []
        ∧ s.info = ExpressSession.getInfo b req
        ∧ s.user = user
        ∧ (∀ u, user = some u → s.userId = some u.id)) := by
  constructor
  · unfold ExpressSession.create ExpressSession.blankModel
    cases hm : b.modelTemplate <;> cases hr : b.sessionRepo <;> simp [isError]
  · intro s hs
    unfold ExpressSession.create at hs
    cases hb : ExpressSession.blankModel b with
    | none => rw [hb] at hs; cases hs
    | some s0 =>
      rw [hb] at hs
      injection hs with hs
      refine hs ▸ ⟨getRandomString_length seed b.tokenLength true true true false,
        getRandomString_alnum seed b.tokenLength, rfl, rfl, rfl, ?_⟩
      intro u hu
      subst hu
      rfl

/-- Witness for C5 at concrete inputs: a bridge with a model service yields
the expected session for user 7, and a bridge with neither model nor
repository fails. -/
theorem claim_c5_witness :
    sT.token.length = 3 ∧ sT.payload = [] ∧ sT.user = some { id := 7 }
    ∧ sT.userId = some 7
    ∧ isError (ExpressSession.create bBad none none 0) = true := by
  have h := (claim_c5 bT (some { id := 7 }) none 0).2 sT rfl
  have h2 := (claim_c5 bBad none none 0).1.mpr ⟨rfl, rfl⟩
  exact ⟨h.1, h.2.2.1, h.2.2.2.2.1, h.2.2.2.2.2 { id := 7 } rfl, h2⟩

/-- C6: `find(token, req)` returns `null` (without throwing — the embedding
is a total function into `Option`) when the repository yields no session for
the token; when a session is found whose `userId` is truthy and a user
repository is configured, the user is resolved and attached (`null` when the
lookup returns no rows) and the metadata snapshot is refreshed exactly when
a request is supplied. -/
theorem claim_c6 (b : Bridge) (repo : SessionRepo) (token : String) (req : Option Req)
    (hr : b.sessionRepo = some repo) :
    (repo.findByToken token = [] → ExpressSession.find b token req = none)
    ∧ (∀ s rest uid ur, repo.findByToken token = s :: rest →
        s.userId = some uid → uid ≠ 0 → b.userRepo = some ur →
        ∃ s2, ExpressSession.find b token req = some s2
          ∧ s2.user = (ur uid).head?
          ∧ s2.token = s.token
          ∧ s2.payload = s.payload
          ∧ s2.userId = s.userId
          ∧ (req = none → s2.info = s.info)
          ∧ (∀ r, req = some r → s2.info = ExpressSession.getInfo b (some r))) := by
  constructor
  · intro h
    simp [ExpressSession.find, hr, h]
  · intro s rest uid ur hfind huid hne hur
    cases req with
    | none =>
      refine ⟨{ s with user := (ur uid).head? }, ?_, rfl, rfl, rfl, rfl, fun _ => rfl, ?_⟩
      · simp [ExpressSession.find, hr, hfind, huid, hur, hne]
      · intro r h; cases h
    | some r =>
      refine ⟨{ s with user := (ur uid).head?, info := ExpressSession.getInfo b (some r) },
        ?_, rfl, rfl, rfl, rfl, ?_, ?_⟩
      · simp [ExpressSession.find, hr, hfind, huid, hur, hne]
      · intro h; cases h
      · intro r2 h2
        injection h2 with h2
        subst h2
        rfl

/-- Test fixture: a session repository holding exactly `sT` under token
"aaa". -/
def repoT : SessionRepo :=
  { findByToken := fun t => if t = "aaa" then [sT] else []
    getModel := blankT
    hasDeleteExpired := false }

/-- Test fixture: a bridge whose session repository is `repoT` and whose
user repository knows user 7. -/
def bRepo : Bridge :=
  { bT with sessionRepo := some repoT
            userRepo := some (fun uid => if uid = 7 then [{ id := 7 }] else []) }

/-- Witness for C6 at concrete inputs: an unknown token yields `none`, and
token "aaa" yields a session with user 7 attached. -/
theorem claim_c6_witness :
    ExpressSession.find bRepo "zzz" none = none
    ∧ ExpressSession.find bRepo "aaa" none = some sT := by
  have h1 := (claim_c6 bRepo repoT "zzz" none rfl).1 (by decide)
  have h2 := (claim_c6 bRepo repoT "aaa" none rfl).2 sT [] 7
    (fun uid => if uid = 7 then [{ id := 7 }] else []) (by decide) rfl (by decide) rfl
  obtain ⟨s2, hfound, huser, htok, hpay, hid, hinfo, -⟩ := h2
  refine ⟨h1, ?_⟩
  rw [hfound]
  have : s2 = sT := by
    have h5 := hinfo rfl
    cases s2
    simp only at huser htok hpay hid h5
    simp [sT, huser, htok, hpay, hid, h5]
  rw [this]

/-- C10: with no session repository configured, `find` returns `null` and
`save`, `destroy`, `expire` perform no storage operation; `save` still
updates `userId` and the metadata snapshot on the in-memory session; and
`expire` is also a no-op whenever the configured repository does not
implement `deleteExpired`. -/
theorem claim_c10 (b : Bridge) (token : String) (req : Option Req) (s : SessionModel) :
    (b.sessionRepo = none →
      ExpressSession.find b token req = none
      ∧ (ExpressSession.save b s req).2 = []
      ∧ ExpressSession.destroy b s = []
      ∧ ExpressSession.expire b = [])
    ∧ (ExpressSession.save b s req).1.userId = s.user.map (fun u => u.id)
    ∧ (∀ r, req = some r →
        (ExpressSession.save b s req).1.info = ExpressSession.getInfo b (some r))
    ∧ (∀ repo, b.sessionRepo = some repo → repo.hasDeleteExpired = false →
        ExpressSession.expire b = []) := by
  refine ⟨?_, ?_, ?_, ?_⟩
  · intro h
    refine ⟨?_, ?_, ?_, ?_⟩ <;>
      simp [ExpressSession.find, ExpressSession.save, ExpressSession.destroy,
        ExpressSession.expire, h]
  · cases req <;> simp [ExpressSession.save]
  · intro r hreq
    subst hreq
    simp [ExpressSession.save]
  · intro repo hrepo hd
    simp [ExpressSession.expire, hrepo, hd]

/-- Witness for C10 at concrete inputs: on the repository-less bridge `bT`,
`find` is `none`, no storage operations are emitted, and `save` derives
`userId` from the attached user. -/
theorem claim_c10_witness :
    ExpressSession.find bT "aaa" none = none
    ∧ (ExpressSession.save bT sT none).2 = []
    ∧ ExpressSession.destroy bT sT = []
    ∧ ExpressSession.expire bT = []
    ∧ (ExpressSession.save bT sT none).1.userId = some 7 := by
  have h := claim_c10 bT "aaa" none sT
  obtain ⟨hfind, hsave, hdestroy, hexpire⟩ := h.1 rfl
  exact ⟨hfind, hsave, hdestroy, hexpire, h.2.1⟩

/-! Helper lemmas about the middleware lifecycle loops. -/

lemma init_lookup_mono (cfg : List String) :
    ∀ (cache : List (String × Nat)) (fresh : Nat) (n : String) (o : Nat),
    Express.mwLookup cache n = some o →
    Express.mwLookup (Express.init cache fresh cfg).1 n = some o := by
  induction cfg with
  | nil => intro cache fresh n o h; exact h
  | cons cur rest ih =>
    intro cache fresh n o h
    unfold Express.init
    cases hc : Express.mwLookup cache cur with
    | some obj => exact ih cache fresh n o h
    | none =>
      refine ih ((cur, fresh) :: cache) (fresh + 1) n o ?_
      unfold Express.mwLookup assocLookup
      by_cases he : cur = n
      · subst he
        rw [h] at hc
        cases hc
      · simpa [he] using h

lemma init_trace_lookup (cfg : List String) :
    ∀ (cache : List (String × Nat)) (fresh : Nat) (n : String) (o : Nat),
    (n, o) ∈ (Express.init cache fresh cfg).2.2 →
    Express.mwLookup (Express.init cache fresh cfg).1 n = some o := by
  induction cfg with
  | nil => intro cache fresh n o h; cases h
  | cons cur rest ih =>
    intro cache fresh n o h
    unfold Express.init at h ⊢
    cases hc : Express.mwLookup cache cur with
    | some obj =>
      rw [hc] at h
      rcases List.mem_cons.mp h with h | h
      · obtain ⟨h1, h2⟩ := Prod.mk.injEq .. ▸ h
        subst h1; subst h2
        exact init_lookup_mono rest cache fresh n o hc
      · exact ih cache fresh n o h
    | none =>
      rw [hc] at h
      rcases List.mem_cons.mp h with h | h
      · obtain ⟨h1, h2⟩ := Prod.mk.injEq .. ▸ h
        subst h1; subst h2
        refine init_lookup_mono rest ((n, o) :: cache) (o + 1) n o ?_
        simp [Express.mwLookup, assocLookup]
      · exact ih ((cur, fresh) :: cache) (fresh + 1) n o h

lemma init_trace_names (cfg : List String) :
    ∀ (cache : List (String × Nat)) (fresh : Nat),
    ((Express.init cache fresh cfg).2.2).map Prod.fst = cfg := by
  induction cfg with
  | nil => intro cache fresh; rfl
  | cons cur rest ih =>
    intro cache fresh
    unfold Express.init
    cases hc : Express.mwLookup cache cur with
    | some obj => simpa using ih cache fresh
    | none => simpa using ih ((cur, fresh) :: cache) (fresh + 1)

lemma init_lookup_of_mem (cfg : List String) :
    ∀ (cache : List (String × Nat)) (fresh : Nat) (n : String), n ∈ cfg →
    (Express.mwLookup (Express.init cache fresh cfg).1 n).isSome := by
  induction cfg with
  | nil => intro cache fresh n h; cases h
  | cons cur rest ih =>
    intro cache fresh n h
    unfold Express.init
    cases hc : Express.mwLookup cache cur with
    | some obj =>
      rcases List.mem_cons.mp h with h | h
      · subst h
        rw [init_lookup_mono rest cache fresh n obj hc]
        rfl
      · exact ih cache fresh n h
    | none =>
      rcases List.mem_cons.mp h with h | h
      · subst h
        rw [init_lookup_mono rest ((n, fresh) :: cache) (fresh + 1) n fresh
            (by simp [Express.mwLookup, assocLookup])]
        rfl
      · exact ih ((cur, fresh) :: cache) (fresh + 1) n h

lemma stop_names (cache : List (String × Nat)) (hasUnreg : String → Bool) :
    ∀ cfg : List String, (∀ n ∈ cfg, (Express.mwLookup cache n).isSome) →
    (Express.stop cache hasUnreg cfg).map Prod.fst = cfg.filter hasUnreg := by
  intro cfg
  induction cfg with
  | nil => intro _; rfl
  | cons cur rest ih =>
    intro h
    have hcur := h cur (List.mem_cons_self cur rest)
    obtain ⟨obj, hobj⟩ := Option.isSome_iff_exists.mp hcur
    have hrest := ih fun n hn => h n (List.mem_cons_of_mem cur hn)
    unfold Express.stop
    rw [hobj]
    by_cases hu : hasUnreg cur
    · simp [hu, hrest, List.filter_cons]
    · simp [hu, hrest, List.filter_cons]

/-- C1: `init` registers the configured middleware strictly in list order —
the reduce in the embedding is the awaited sequential chain — and after that
`init`, `stop` invokes `unregister` in the same list order on exactly those
configured middleware whose instance has an `unregister` function (all of
them, when every instance has one). -/
theorem claim_c1 (cache : List (String × Nat)) (fresh : Nat) (cfg : List String)
    (hasUnreg : String → Bool) :
    ((Express.init cache fresh cfg).2.2).map Prod.fst = cfg
    ∧ (Express.stop (Express.init cache fresh cfg).1 hasUnreg cfg).map Prod.fst
        = cfg.filter hasUnreg
    ∧ (Express.stop (Express.init cache fresh cfg).1 (fun _ => true) cfg).map Prod.fst
        = cfg := by
  refine ⟨init_trace_names cfg cache fresh, ?_, ?_⟩
  · exact stop_names _ hasUnreg cfg fun n hn => init_lookup_of_mem cfg cache fresh n hn
  · rw [stop_names _ (fun _ => true) cfg fun n hn => init_lookup_of_mem cfg cache fresh n hn]
    simp

/-- C9: middleware instances are singletons held in the shared cache — any
two register events for the same identifier, across one `init` run and a
later `init` run (of this or another server) starting from the cache the
first run left behind, carry the identical instance. -/
theorem claim_c9 (cache : List (String × Nat)) (fresh : Nat) (cfg1 cfg2 : List String)
    (n : String) (o1 o2 : Nat)
    (h1 : (n, o1) ∈ (Express.init cache fresh cfg1).2.2)
    (h2 : (n, o2) ∈
      (Express.init (Express.init cache fresh cfg1).1
        (Express.init cache fresh cfg1).2.1 cfg2).2.2) :
    o2 = o1 := by
  have e1 := init_trace_lookup cfg1 cache fresh n o1 h1
  have e2 := init_trace_lookup cfg2 (Express.init cache fresh cfg1).1
    (Express.init cache fresh cfg1).2.1 n o2 h2
  have e3 := init_lookup_mono cfg2 (Express.init cache fresh cfg1).1
    (Express.init cache fresh cfg1).2.1 n o1 e1
  rw [e2] at e3
  injection e3 with e3

/-- Witness for C9 at concrete inputs: registering "a" and "b", then
initialising a second server with list ["a"], reuses instance 0 for "a". -/
theorem claim_c9_witness :
    ("a", 0) ∈ (Express.init [] 0 ["a", "b"]).2.2
    ∧ ("a", 0) ∈ (Express.init (Express.init [] 0 ["a", "b"]).1
        (Express.init [] 0 ["a", "b"]).2.1 ["a"]).2.2
    ∧ (0 : Nat) = 0 := by
  refine ⟨by decide, by decide, ?_⟩
  exact claim_c9 [] 0 ["a", "b"] ["a"] "a" 0 0 (by decide) (by decide)

/-! Helper lemmas about the router sort. -/

lemma filter_orderedInsert (p : Int) (a : ModRouter) :
    ∀ l : List ModRouter,
    (List.orderedInsert routerRel a l).filter (fun x => x.priority == p)
    = if a.priority = p
      then a :: l.filter (fun x => x.priority == p)
      else l.filter (fun x => x.priority == p) := by
  intro l
  induction l with
  | nil =>
    by_cases h : a.priority = p <;>
      simp [List.orderedInsert, List.filter_cons, h]
  | cons b t ih =>
    unfold List.orderedInsert
    by_cases hr : routerRel a b
    · by_cases ha : a.priority = p <;> simp [hr, List.filter_cons, ha]
    · have hlt : a.priority < b.priority := by
        have := hr
        unfold routerRel at this
        omega
      by_cases ha : a.priority = p
      · have hb : ¬(b.priority = p) := by omega
        simp [hr, List.filter_cons, hb, ih, ha]
      · simp [hr, List.filter_cons, ih, ha]

lemma filter_insertionSort (p : Int) :
    ∀ l : List ModRouter,
    (List.insertionSort routerRel l).filter (fun x => x.priority == p)
    = l.filter (fun x => x.priority == p) := by
  intro l
  induction l with
  | nil => rfl
  | cons a t ih =>
    show (List.orderedInsert routerRel a (List.insertionSort routerRel t)).filter _ = _
    rw [filter_orderedInsert p a]
    by_cases ha : a.priority = p <;> simp [List.filter_cons, ha, ih]

/-- C8: the routes middleware mounts the module-contributed routers as a
permutation of the collected list, in descending priority order, preserving
the original relative order among routers of equal priority (the filter at
each priority is unchanged); in particular priorities [5, 20, 5] mount as
[20, 5, 5] with the two 5s in original order. -/
theorem claim_c8 (modules : List (Option (List ModRouter))) :
    (Routes.register modules).Perm (collectRouters modules)
    ∧ (Routes.register modules).Pairwise routerRel
    ∧ (∀ p : Int, (Routes.register modules).filter (fun x => x.priority == p)
        = (collectRouters modules).filter (fun x => x.priority == p))
    ∧ Routes.register [some [⟨5, 0⟩], none, some [⟨20, 1⟩, ⟨5, 2⟩]]
        = [⟨20, 1⟩, ⟨5, 0⟩, ⟨5, 2⟩] := by
  refine ⟨List.perm_insertionSort routerRel _, ?_, ?_, by decide⟩
  · exact List.sorted_insertionSort routerRel _
  · intro p
    exact filter_insertionSort p _

/-! Helper lemmas about the session middleware. -/

lemma endHook1_origEndCalled (sess : Option SessionModel) (u : Option UserModel)
    (tv : String) (update : SessionModel → Except Unit Bool)
    (encode : SessionModel → Except Unit String) :
    (endHook1 sess u tv update encode).origEndCalled = true := by
  unfold endHook1
  rcases sess with _ | s0
  · rfl
  · dsimp only
    split
    · rfl
    · split
      · split <;> rfl
      · rfl

lemma tokenVar_ne_empty (b : Bridge) : ¬(ExpressSession.tokenVar b = "") := by
  intro h
  have h2 := congrArg String.length h
  simp only [ExpressSession.tokenVar, String.length_append] at h2
  have h4 : ("sid_" : String).length = 4 := rfl
  have h1 : ("_" : String).length = 1 := rfl
  have h0 : ("" : String).length = 0 := rfl
  omega

/-- C2 counterexample: in the nullable middleware variant, when session
creation throws (a bridge failure), the request-scoped session field is JS
`null`, not an empty payload object — refuting the claim's "default to an
empty payload object" for that variant. -/
theorem claim_c2_cex :
    (handle1 none "sid" (fun _ => Except.ok none) (Except.error ())).reqSession
      = JsField.null
    ∧ ¬((handle1 none "sid" (fun _ => Except.ok none) (Except.error ())).reqSession
      = JsField.payload []) := by
  exact ⟨rfl, by decide⟩

/-- C2 (amended): on any bridge failure (decode or create throwing) the
request-scoped fields are still initialized — the user defaults to null in
both middleware variants, and the session field defaults to the empty
payload object in the merged-payload variant but to JS null in the nullable
variant. -/
theorem claim_c2 (cookies : Option (List (String × String))) (tv : String)
    (decode : String → Except Unit (Option SessionModel))
    (create : Except Unit SessionModel)
    (h : isError (sessionAttempt (cookieTokenOf cookies tv) decode create) = true) :
    (handle1 cookies tv decode create).reqSession = JsField.null
    ∧ (handle1 cookies tv decode create).reqUser = none
    ∧ (handle2 cookies tv decode create).reqSession = []
    ∧ (handle2 cookies tv decode create).reqUser = none := by
  rcases ha : sessionAttempt (cookieTokenOf cookies tv) decode create with e | sess
  · simp [handle1, handle2, ha]
  · rw [ha] at h
    simp [isError] at h

/-- Witness for C2 at a concrete input: with a throwing `create`, the user
field is null in the nullable variant and the session field is the empty
object in the merged-payload variant. -/
theorem claim_c2_witness :
    (handle1 none "t" (fun _ => Except.ok none) (Except.error ())).reqUser = none
    ∧ (handle2 none "t" (fun _ => Except.ok none) (Except.error ())).reqSession = [] := by
  have h := claim_c2 none "t" (fun _ => Except.ok none) (Except.error ()) rfl
  exact ⟨h.2.1, h.2.2.1⟩

/-- C3: a session with empty payload and no attached user at FINALIZE is not
valid, and neither middleware variant's finalize hook sets a cookie for it
(the merged-payload variant decides through the session service's update,
modelled from the spec as reporting `isValid`). -/
theorem claim_c3 (s : SessionModel) (tv : String)
    (update : SessionModel → Except Unit Bool)
    (encode encode2 : SessionModel → Except Unit String)
    (hp : s.payload = []) :
    SessionService.isValid { s with user := none } = false
    ∧ (endHook1 (some s) none tv update encode).cookie = none
    ∧ (endHook2 (some s) [] none tv SessionService.update encode2).cookie = none := by
  have hv : SessionService.isValid { s with user := none } = false := by
    simp [SessionService.isValid, hp]
  refine ⟨hv, ?_, ?_⟩
  · unfold endHook1
    rcases hu : update { s with user := none } with e | r <;> simp [hu, hv]
  · have hv2 : SessionService.isValid { s with payload := [], user := none } = false := by
      simp [SessionService.isValid]
    unfold endHook2 SessionService.update
    simp [hv2]

/-- Witness for C3 at a concrete input: the empty-payload, user-less session
`sT` with user detached is invalid and triggers no cookie in either
variant's finalize hook. -/
theorem claim_c3_witness :
    SessionService.isValid { sT with user := none } = false
    ∧ (endHook1 (some sT) none "tv" (fun _ => Except.ok true)
        (fun _ => Except.ok "t")).cookie = none
    ∧ (endHook2 (some sT) [] none "tv" SessionService.update
        (fun _ => Except.ok "t")).cookie = none :=
  claim_c3 sT "tv" (fun _ => Except.ok true) (fun _ => Except.ok "t")
    (fun _ => Except.ok "t") rfl

/-- C4: for a session with non-empty payload at FINALIZE (hence valid), when
the update and encode steps succeed, the nullable variant's finalize hook
sets exactly one cookie named by the bridge's token variable
sid_<server>_<project>, valued with the encoded token, with maxAge one year
in milliseconds, path root and httpOnly false. -/
theorem claim_c4 (b : Bridge) (s : SessionModel) (u : Option UserModel)
    (update : SessionModel → Except Unit Bool)
    (encode : SessionModel → Except Unit String) (tok : String) (r : Bool)
    (hp : s.payload ≠ [])
    (hu : update { s with user := u } = Except.ok r)
    (he : encode { s with user := u } = Except.ok tok) :
    endHook1 (some s) u (ExpressSession.tokenVar b) update encode
      = { cookie :=
            some { name := ExpressSession.tokenVar b, value := tok
                   maxAge := 365 * 24 * 60 * 60 * 1000, path := "/", httpOnly := false }
          logged := 0, origEndCalled := true }
    ∧ ExpressSession.tokenVar b = "sid_" ++ b.server ++ "_" ++ b.project
    ∧ SessionService.isValid { s with user := u } = true := by
  have hv : SessionService.isValid { s with user := u } = true := by
    rcases hps : s.payload with _ | ⟨a, t⟩
    · exact absurd hps hp
    · simp [SessionService.isValid, hps]
  refine ⟨?_, rfl, hv⟩
  unfold endHook1
  simp [hu, hv, tokenVar_ne_empty b, he]

/-- Test fixture: a session with a non-empty payload. -/
def s4T : SessionModel :=
  { token := "aaa", payload := [("k", "v")], user := none, userId := none, info := infoT }

/-- Witness for C4 at concrete inputs: the finalize hook on `s4T` with user
7 sets the cookie sid_web_p with the encoded token and the documented
attributes. -/
theorem claim_c4_witness :
    endHook1 (some s4T) (some { id := 7 }) (ExpressSession.tokenVar bT)
      (fun _ => Except.ok true) (fun _ => Except.ok "tok")
      = { cookie :=
            some { name := "sid_web_p", value := "tok"
                   maxAge := 31536000000, path := "/", httpOnly := false }
          logged := 0, origEndCalled := true }
    ∧ SessionService.isValid { s4T with user := some { id := 7 } } = true := by
  have h := claim_c4 bT s4T (some { id := 7 }) (fun _ => Except.ok true)
    (fun _ => Except.ok "tok") "tok" true (by decide) rfl rfl
  refine ⟨?_, h.2.2⟩
  rw [h.1]
  rfl

/-- C7: in the nullable variant's per-request flow, the original `res.end`
is always invoked; a decode/create error is caught and logged leaving no
session; an update error is caught, logged and yields no cookie; and an
encode error on the cookie path is caught, logged and yields no cookie —
no session error ever escapes the middleware. -/
theorem claim_c7 (cookies : Option (List (String × String))) (tv : String)
    (decode : String → Except Unit (Option SessionModel))
    (create : Except Unit SessionModel)
    (update : SessionModel → Except Unit Bool)
    (encode : SessionModel → Except Unit String) :
    (requestRun1 cookies tv decode create update encode).2.origEndCalled = true
    ∧ (isError (sessionAttempt (cookieTokenOf cookies tv) decode create) = true →
        (handle1 cookies tv decode create).logged = 1
        ∧ (handle1 cookies tv decode create).session = none)
    ∧ (∀ s u, isError (update { s with user := u }) = true →
        endHook1 (some s) u tv update encode
          = { cookie := none, logged := 1, origEndCalled := true })
    ∧ (∀ s u r0, update { s with user := u } = Except.ok r0 →
        (SessionService.isValid { s with user := u } && !(tv = "")) = true →
        isError (encode { s with user := u }) = true →
        endHook1 (some s) u tv update encode
          = { cookie := none, logged := 1, origEndCalled := true }) := by
  refine ⟨endHook1_origEndCalled _ _ _ _ _, ?_, ?_, ?_⟩
  · intro h
    rcases ha : sessionAttempt (cookieTokenOf cookies tv) decode create with e | sess
    · simp [handle1, ha]
    · rw [ha] at h
      simp [isError] at h
  · intro s u h
    rcases hu : update { s with user := u } with e | r
    · unfold endHook1
      simp [hu]
    · rw [hu] at h
      simp [isError] at h
  · intro s u r0 hu hcond he
    rcases hee : encode { s with user := u } with e | t
    · unfold endHook1
      simp [hu, hee, hcond]
    · rw [hee] at he
      simp [isError] at he

/-- Witness for C7 at concrete inputs: a throwing `create` is logged with no
session, a throwing update is logged with no cookie, and the original
`res.end` still runs. -/
theorem claim_c7_witness :
    (requestRun1 none "tv" (fun _ => Except.ok none) (Except.error ())
      (fun _ => Except.error ()) (fun _ => Except.ok "t")).2.origEndCalled = true
    ∧ (handle1 none "tv" (fun _ => Except.ok none) (Except.error ())).logged = 1
    ∧ endHook1 (some sT) none "tv" (fun _ => Except.error ()) (fun _ => Except.ok "t")
        = { cookie := none, logged := 1, origEndCalled := true } := by
  have h := claim_c7 none "tv" (fun _ => Except.ok none) (Except.error ())
    (fun _ => Except.error ()) (fun _ => Except.ok "t")
  exact ⟨h.1, (h.2.1 rfl).1, h.2.2.1 sT none rfl⟩

end ArpenExpress
